import Mathlib

/-!
Shallow embedding of the SQLite-backed graph store of `pkg/graph` (rss-graph).

The four tables (feeds, links, mentions, mention_snapshots) are modelled as
lists of rows; the `AUTOINCREMENT` feed id is an explicit counter in the
store state.  Row ids of links/mentions and the `DEFAULT CURRENT_TIMESTAMP`
columns (`created_at`, `discovered_at`) are wall-clock side effects that no
modelled query reads, so they are omitted from the row types.  SQLite foreign
keys are declared but not enabled by the Go code (no `PRAGMA foreign_keys`),
so inserts never fail on them; in this pure model the storage engine itself
never fails, so operations whose Go signature carries an `error` are either
total or return `Except String` with the error branch unreachable.
`float64` velocity arithmetic is modelled exactly over `ℚ`.
-/

/-- A row of the `feeds` table (`id`, `url UNIQUE`, `title`). -/
structure FeedRow where
  id : Int
  url : String
  title : String
deriving DecidableEq

/-- A row of the `links` table; `UNIQUE(source_id, target_id, post_url)`. -/
structure LinkRow where
  sourceId : Int
  targetId : Int
  context : String
  postUrl : String
  postTitle : String
deriving DecidableEq

/-- A row of the `mentions` table; `UNIQUE(source_id, name, post_url)`. -/
structure MentionRow where
  sourceId : Int
  name : String
  entityType : String
  context : String
  postUrl : String
  postTitle : String
deriving DecidableEq

/-- A row of the `mention_snapshots` table;
`UNIQUE(name, entity_type, snapshot_date)`. -/
structure SnapshotRow where
  name : String
  entityType : String
  mentionCount : Int
  snapshotDate : String
deriving DecidableEq

/-- The persistent store state: the four tables plus the feeds
`AUTOINCREMENT` counter. -/
structure Store where
  feeds : List FeedRow
  links : List LinkRow
  mentions : List MentionRow
  snapshots : List SnapshotRow
  nextFeedId : Int
deriving DecidableEq

/-- The `RisingMention` result record of `GetRisingMentions`. -/
structure RisingMention where
  name : String
  entityType : String
  currentCount : Int
  previousCount : Int
  velocity : ℚ
  status : String
deriving DecidableEq

/-- Go source: `GetFeedByURL` runs `SELECT ... FROM feeds WHERE url = ?`;
`sql.ErrNoRows` is translated to `(nil, nil)`, i.e. `.ok none`; a storage
failure would be `.error`, which the pure model never produces. -/
def GetFeedByURL (g : Store) (url : String) : Except String (Option FeedRow) :=
  Except.ok (g.feeds.find? (fun f => f.url = url))

/-- Go source: `AddFeed` first calls `GetFeedByURL`; if a row exists it
returns its id, otherwise it inserts `(url, title)` and returns the new
autoincrement id. -/
def AddFeed (g : Store) (url title : String) : Except String (Int × Store) :=
  match GetFeedByURL g url with
  | Except.error e => Except.error e
  | Except.ok (some f) => Except.ok (f.id, g)
  | Except.ok none =>
      let id := g.nextFeedId
      Except.ok (id,
        { g with
          feeds := g.feeds ++ [{ id := id, url := url, title := title }],
          nextFeedId := id + 1 })

/-- Whether two link rows collide on the `UNIQUE(source_id, target_id,
post_url)` key. -/
def sameLinkKey (r l : LinkRow) : Bool :=
  r.sourceId = l.sourceId ∧ r.targetId = l.targetId ∧ r.postUrl = l.postUrl

/-- Go source: `AddLink` is `INSERT OR IGNORE INTO links ...`: a row whose
uniqueness key is already present is silently ignored. -/
def AddLink (g : Store) (l : LinkRow) : Store :=
  if g.links.any (fun r => sameLinkKey r l) then g
  else { g with links := g.links ++ [l] }

/-- Whether two mention rows collide on the `UNIQUE(source_id, name,
post_url)` key. -/
def sameMentionKey (r m : MentionRow) : Bool :=
  r.sourceId = m.sourceId ∧ r.name = m.name ∧ r.postUrl = m.postUrl

/-- Go source: `AddMention` is `INSERT OR IGNORE INTO mentions ...`. -/
def AddMention (g : Store) (m : MentionRow) : Store :=
  if g.mentions.any (fun r => sameMentionKey r m) then g
  else { g with mentions := g.mentions ++ [m] }

/-- The inbound link count of a feed id: `COUNT(l.id)` over
`links l ON f.id = l.target_id` (a `LEFT JOIN` row with no match counts 0). -/
def inboundCount (g : Store) (fid : Int) : Int :=
  ((g.links.filter (fun l => l.targetId = fid)).length : Int)

/-- Insertion step of a list sort by a boolean comparison: `x` is placed
before the first element `y` with `le x y`. -/
def insertLe {α : Type} (le : α → α → Bool) (x : α) : List α → List α
  | [] => [x]
  | y :: ys => if le x y then x :: y :: ys else y :: insertLe le x ys

/-- Sort a list by a boolean comparison (models the SQL `ORDER BY` and the
Go in-place selection sort; tie order is unspecified in both). -/
def isort {α : Type} (le : α → α → Bool) (l : List α) : List α :=
  l.foldr (insertLe le) []

/-- Go source: `GetMostLinked` runs
`SELECT f.*, COUNT(l.id) FROM feeds f LEFT JOIN links l ON f.id = l.target_id
GROUP BY f.id HAVING link_count > 0 ORDER BY link_count DESC LIMIT ?`.
The SQL `LIMIT` is modelled for nonnegative limits. -/
def GetMostLinked (g : Store) (limit : Nat) : List (FeedRow × Int) :=
  let rows := g.feeds.filterMap (fun f =>
    let c := inboundCount g f.id
    if 0 < c then some (f, c) else none)
  (isort (fun a b => decide (b.2 ≤ a.2)) rows).take limit

/-- Keep the first occurrence of each element (determinises the unspecified
SQL `GROUP BY` output order as first-occurrence order). -/
def firstDedup {α : Type} [DecidableEq α] (l : List α) : List α :=
  l.foldl (fun acc a => if a ∈ acc then acc else acc ++ [a]) []

/-- The live aggregation `SELECT name, entity_type, COUNT(*) FROM mentions
GROUP BY name, entity_type` used by `TakeSnapshot`. -/
def mentionGroups (ms : List MentionRow) : List (String × String × Int) :=
  let keys := firstDedup (ms.map (fun m => (m.name, m.entityType)))
  keys.map (fun k =>
    (k.1, k.2, ((ms.filter (fun m => m.name = k.1 ∧ m.entityType = k.2)).length : Int)))

/-- The `(name, entity_type, snapshot_date)` uniqueness key of a snapshot
row. -/
def tripleOf (s : SnapshotRow) : String × String × String :=
  (s.name, s.entityType, s.snapshotDate)

/-- One `INSERT OR REPLACE` of a snapshot row: any row colliding on the
uniqueness key is deleted, then the new row is inserted. -/
def replaceSnapshot (snaps : List SnapshotRow) (r : SnapshotRow) : List SnapshotRow :=
  (snaps.filter (fun s => ¬ tripleOf s = tripleOf r)) ++ [r]

/-- One row of the `INSERT OR REPLACE ... SELECT` of `TakeSnapshot`: the
aggregated group `(name, entity_type, count)` is written for `date`. -/
def snapStep (d : String) (acc : List SnapshotRow) (r : String × String × Int) :
    List SnapshotRow :=
  replaceSnapshot acc
    { name := r.1, entityType := r.2.1, mentionCount := r.2.2, snapshotDate := d }

/-- Go source: `TakeSnapshot` runs `INSERT OR REPLACE INTO mention_snapshots
SELECT name, entity_type, COUNT(*), ? FROM mentions GROUP BY name,
entity_type` and returns the affected row count. -/
def TakeSnapshot (g : Store) (date : String) : Int × Store :=
  let gs := mentionGroups g.mentions
  ((gs.length : Int),
   { g with snapshots := gs.foldl (snapStep date) g.snapshots })

/-- The uniqueness invariant of the snapshot table: no two rows share a
`(name, entity_type, snapshot_date)` triple. -/
abbrev tripleNodup (snaps : List SnapshotRow) : Prop :=
  (snaps.map tripleOf).Nodup

/-- Go source: `PruneSnapshots` runs
`DELETE FROM mention_snapshots WHERE snapshot_date < ?` and returns the
number of deleted rows. -/
def PruneSnapshots (g : Store) (beforeDate : String) : Int × Store :=
  (((g.snapshots.countP (fun s => s.snapshotDate < beforeDate)) : Int),
   { g with snapshots := g.snapshots.filter (fun s => ¬ s.snapshotDate < beforeDate) })

/-- Go-map assignment `m[k] = v`: overwrite if the key is present, else
append. -/
def mapSet (m : List (String × Int)) (k : String) (v : Int) : List (String × Int) :=
  if m.any (fun q => q.1 = k) then m.map (fun q => if q.1 = k then (k, v) else q)
  else m ++ [(k, v)]

/-- Build a Go map from a row sequence by repeated assignment (keys unique,
last value wins). -/
def buildCounts (rows : List (String × Int)) : List (String × Int) :=
  rows.foldl (fun m p => mapSet m p.1 p.2) []

/-- Go-map read `m[k]` with the zero value 0 for an absent key. -/
def lookup0 (m : List (String × Int)) (k : String) : Int :=
  ((m.find? (fun q => q.1 = k)).map (fun q => q.2)).getD 0

/-- The `(name, mention_count)` rows of
`SELECT name, mention_count FROM mention_snapshots WHERE entity_type = ?
AND snapshot_date = ?`. -/
def snapshotPairs (snaps : List SnapshotRow) (et date : String) : List (String × Int) :=
  (snaps.filter (fun s => s.entityType = et ∧ s.snapshotDate = date)).map
    (fun s => (s.name, s.mentionCount))

/-- The live aggregation `SELECT name, COUNT(*) FROM mentions WHERE
entity_type = ? GROUP BY name` used by the `GetRisingMentions` fallback. -/
def liveCountPairs (ms : List MentionRow) (et : String) : List (String × Int) :=
  let rel := ms.filter (fun m => m.entityType = et)
  (firstDedup (rel.map (fun m => m.name))).map
    (fun n => (n, ((rel.filter (fun m => m.name = n)).length : Int)))

/-- The `currentCounts` map of `GetRisingMentions`: snapshot counts for
`(entityType, date)`, falling back to live counts when the map is empty. -/
def currentCountsFor (g : Store) (et date : String) : List (String × Int) :=
  let fromSnap := buildCounts (snapshotPairs g.snapshots et date)
  if fromSnap.isEmpty then liveCountPairs g.mentions et else fromSnap

/-- The `previousCounts` map of `GetRisingMentions`: snapshot counts only,
no live fallback. -/
def previousCountsFor (g : Store) (et date : String) : List (String × Int) :=
  buildCounts (snapshotPairs g.snapshots et date)

/-- The loop body of `GetRisingMentions`: velocity and status of one name
from its current and previous counts (`float64` modelled over `ℚ`). -/
def classify (et nm : String) (current previous : Int) : RisingMention :=
  if previous = 0 then
    { name := nm, entityType := et, currentCount := current,
      previousCount := previous, velocity := (current : ℚ), status := "new" }
  else
    let v : ℚ := ((current : ℚ) - (previous : ℚ)) / (previous : ℚ)
    { name := nm, entityType := et, currentCount := current,
      previousCount := previous, velocity := v,
      status :=
        if 1 < v ∧ 3 ≤ current then "hot"
        else if 1/2 < v then "rising"
        else "" }

/-- Go source: `GetRisingMentions` — current counts (with live fallback),
previous counts, per-name classification, the inclusion filter
`status != "" or (status == "new" and current >= 2)`, sort by velocity
descending, then `results[:limit]` when `len(results) > limit`.  The Go
slice expression panics for a negative `limit`; a panic is modelled as
`none`. -/
def GetRisingMentions (g : Store) (et currentDate previousDate : String)
    (limit : Int) : Option (List RisingMention) :=
  let currentCounts := currentCountsFor g et currentDate
  let previousCounts := previousCountsFor g et previousDate
  let results := currentCounts.filterMap (fun p =>
    let r := classify et p.1 p.2 (lookup0 previousCounts p.1)
    if r.status ≠ "" ∨ (r.status = "new" ∧ 2 ≤ r.currentCount) then some r else none)
  let sorted := isort (fun a b => decide (b.velocity ≤ a.velocity)) results
  if (limit : Int) < (sorted.length : Int) then
    if 0 ≤ limit then some (sorted.take limit.toNat) else none
  else some sorted

/-- Concrete store with a single live mention and no snapshots (the
live-fallback, previous-count-0 scenario). -/
def gOneMention : Store :=
  { feeds := [], links := [],
    mentions := [{ sourceId := 1, name := "x", entityType := "PERSON",
                   context := "", postUrl := "https://p.example/1", postTitle := "" }],
    snapshots := [], nextFeedId := 1 }

/-- Concrete store with two snapshots of the mention counts of one name
(3 on the earlier date, 8 on the later one). -/
def gTwoSnaps : Store :=
  { feeds := [], links := [], mentions := [],
    snapshots :=
      [{ name := "x", entityType := "PERSON", mentionCount := 8, snapshotDate := "2024-01-08" },
       { name := "x", entityType := "PERSON", mentionCount := 3, snapshotDate := "2024-01-01" }],
    nextFeedId := 1 }

/-- Concrete link edge used by the C4 witness. -/
def lEx : LinkRow :=
  { sourceId := 1, targetId := 2, context := "",
    postUrl := "https://p.example/1", postTitle := "" }

/-- Concrete mention (already present in gOneMention) used by the C4
witness. -/
def mEx : MentionRow :=
  { sourceId := 1, name := "x", entityType := "PERSON", context := "",
    postUrl := "https://p.example/1", postTitle := "" }

/-- Concrete ranking store: feed 1 links to feeds 2, 3, 4 and feed 2 links
to feed 4, so feed 4 has inbound count 2 and feed 1 has inbound count 0. -/
def gRank : Store :=
  { feeds :=
      [{ id := 1, url := "https://a.example/", title := "A" },
       { id := 2, url := "https://b.example/", title := "B" },
       { id := 3, url := "https://c.example/", title := "C" },
       { id := 4, url := "https://d.example/", title := "D" }],
    links :=
      [{ sourceId := 1, targetId := 2, context := "", postUrl := "https://pa.example/1", postTitle := "" },
       { sourceId := 1, targetId := 3, context := "", postUrl := "https://pa.example/1", postTitle := "" },
       { sourceId := 1, targetId := 4, context := "", postUrl := "https://pa.example/1", postTitle := "" },
       { sourceId := 2, targetId := 4, context := "", postUrl := "https://pb.example/1", postTitle := "" }],
    mentions := [], snapshots := [], nextFeedId := 5 }

/-- The most-linked feed of gRank. -/
def fD : FeedRow := { id := 4, url := "https://d.example/", title := "D" }

/-- Concrete store with two snapshot rows on distinct dates, for the
pruning witness. -/
def gSnapDates : Store :=
  { feeds := [], links := [], mentions := [],
    snapshots :=
      [{ name := "x", entityType := "PERSON", mentionCount := 1, snapshotDate := "2024-01-01" },
       { name := "y", entityType := "PERSON", mentionCount := 2, snapshotDate := "2024-01-05" }],
    nextFeedId := 1 }

/-- Direct aggregation of the live mention table grouped by name within one
entity type, following the specification's words for the fallback
comparison ("directly aggregating live mentions for that entity type"). -/
def specLiveCount (ms : List MentionRow) (et n : String) : Int :=
  ((ms.filter (fun m => m.entityType = et ∧ m.name = n)).length : Int)

theorem find?_append_of_none {α : Type} {p : α → Bool} {l₁ l₂ : List α}
    (h : l₁.find? p = none) : (l₁ ++ l₂).find? p = l₂.find? p := by
  induction l₁ with
  | nil => rfl
  | cons a l ih =>
      cases hp : p a with
      | true => simp [List.find?, hp] at h
      | false =>
          simp only [List.find?, hp] at h
          simpa [List.find?, hp] using ih h

theorem mem_insertLe {α : Type} (le : α → α → Bool) (x a : α) (l : List α) :
    a ∈ insertLe le x l ↔ a = x ∨ a ∈ l := by
  induction l with
  | nil => simp [insertLe]
  | cons y ys ih =>
      by_cases h : le x y = true
      · simp [insertLe, h, List.mem_cons]
      · simp only [insertLe, if_neg h, List.mem_cons, ih]
        tauto

theorem mem_isort {α : Type} (le : α → α → Bool) (a : α) (l : List α) :
    a ∈ isort le l ↔ a ∈ l := by
  induction l with
  | nil => simp [isort]
  | cons x xs ih =>
      show a ∈ insertLe le x (isort le xs) ↔ _
      rw [mem_insertLe, List.mem_cons, ih]

theorem pairwise_insertLe {α : Type} (le : α → α → Bool)
    (htot : ∀ a b, le a b = true ∨ le b a = true)
    (htrans : ∀ a b c, le a b = true → le b c = true → le a c = true)
    (x : α) (l : List α) (h : l.Pairwise (fun a b => le a b = true)) :
    (insertLe le x l).Pairwise (fun a b => le a b = true) := by
  induction l with
  | nil => simp [insertLe]
  | cons y ys ih =>
      cases h with
      | cons hy hys =>
        by_cases hxy : le x y = true
        · simp only [insertLe, if_pos hxy]
          refine List.Pairwise.cons ?_ (List.Pairwise.cons hy hys)
          intro b hb
          rcases List.mem_cons.mp hb with rfl | hb
          · exact hxy
          · exact htrans x y b hxy (hy b hb)
        · simp only [insertLe, if_neg hxy]
          refine List.Pairwise.cons ?_ (ih hys)
          intro b hb
          rcases (mem_insertLe le x b ys).mp hb with hbe | hb
          · subst hbe
            rcases htot b y with hx | hx
            · exact absurd hx hxy
            · exact hx
          · exact hy b hb

theorem pairwise_isort {α : Type} (le : α → α → Bool)
    (htot : ∀ a b, le a b = true ∨ le b a = true)
    (htrans : ∀ a b c, le a b = true → le b c = true → le a c = true)
    (l : List α) : (isort le l).Pairwise (fun a b => le a b = true) := by
  induction l with
  | nil => exact List.Pairwise.nil
  | cons x xs ih => exact pairwise_insertLe le htot htrans x (isort le xs) ih

theorem mem_firstDedup_aux {α : Type} [DecidableEq α] (l acc : List α) (a : α) :
    a ∈ l.foldl (fun acc b => if b ∈ acc then acc else acc ++ [b]) acc ↔
      a ∈ acc ∨ a ∈ l := by
  induction l generalizing acc with
  | nil => simp
  | cons b l ih =>
      rw [List.foldl_cons, ih]
      by_cases hb : b ∈ acc
      · rw [if_pos hb]
        constructor
        · rintro (h | h)
          · exact Or.inl h
          · exact Or.inr (List.mem_cons_of_mem b h)
        · rintro (h | h)
          · exact Or.inl h
          · rcases List.mem_cons.mp h with rfl | h
            · exact Or.inl hb
            · exact Or.inr h
      · rw [if_neg hb]
        simp only [List.mem_append, List.mem_singleton, List.mem_cons]
        tauto

theorem mem_firstDedup {α : Type} [DecidableEq α] (l : List α) (a : α) :
    a ∈ firstDedup l ↔ a ∈ l := by
  rw [firstDedup, mem_firstDedup_aux]
  simp

theorem nodup_firstDedup_aux {α : Type} [DecidableEq α] (l acc : List α)
    (h : acc.Nodup) :
    (l.foldl (fun acc b => if b ∈ acc then acc else acc ++ [b]) acc).Nodup := by
  induction l generalizing acc with
  | nil => exact h
  | cons b l ih =>
      rw [List.foldl_cons]
      by_cases hb : b ∈ acc
      · rw [if_pos hb]; exact ih acc h
      · rw [if_neg hb]
        refine ih _ ?_
        simp [List.nodup_append, h, hb]

theorem nodup_firstDedup {α : Type} [DecidableEq α] (l : List α) :
    (firstDedup l).Nodup :=
  nodup_firstDedup_aux l [] List.nodup_nil

/-- C1: evaluation of the code at the failing input.  With no snapshots and a
single live mention, the name has previous count 0 and current count 1, is
assigned status "new", and IS included in the result: the inclusion filter
`status != "" or (status == "new" and current >= 2)` is satisfied by its
first disjunct, so the `current >= 2` guard on "new" names is dead code and
the claimed exclusion of a previous=0, current=1 name does not happen. -/
theorem getRisingMentions_includes_new_singleton :
    GetRisingMentions gOneMention "PERSON" "2024-01-08" "2024-01-01" 10 =
      some [{ name := "x", entityType := "PERSON", currentCount := 1,
              previousCount := 0, velocity := 1, status := "new" }] := rfl

/-- C9: for a URL matching no feed row, GetFeedByURL returns the explicit
absent result, carried on the success branch: it is never reported as an
error. -/
theorem getFeedByURL_absent_not_error (g : Store) (url : String)
    (h : ∀ f ∈ g.feeds, f.url ≠ url) :
    GetFeedByURL g url = Except.ok none := by
  unfold GetFeedByURL
  have hfind : g.feeds.find? (fun f => f.url = url) = none :=
    List.find?_eq_none.mpr (fun f hf => by simpa using h f hf)
  rw [hfind]

/-- Witness for C9 at a concrete store and URL. -/
theorem getFeedByURL_absent_not_error_witness :
    GetFeedByURL gOneMention "https://absent.example/" = Except.ok none :=
  getFeedByURL_absent_not_error gOneMention "https://absent.example/" (by decide)

/-- C10: for every negative limit, GetRisingMentions reaches the truncation
step with `len(results) > limit` (a length is nonnegative), slices to a
negative bound and panics (modelled as `none`) instead of returning a value
or an error. -/
theorem getRisingMentions_negative_limit_panics (g : Store)
    (et cd pd : String) (limit : Int) (h : limit < 0) :
    GetRisingMentions g et cd pd limit = none := by
  simp only [GetRisingMentions]
  split_ifs with h1 h2
  · omega
  · rfl
  · exfalso
    omega

/-- Witness for C10 at a concrete store and limit -1. -/
theorem getRisingMentions_negative_limit_panics_witness :
    GetRisingMentions gOneMention "PERSON" "2024-01-08" "2024-01-01" (-1) = none :=
  getRisingMentions_negative_limit_panics gOneMention "PERSON" "2024-01-08"
    "2024-01-01" (-1) (by decide)

/-- C3: starting from a store without the URL, AddFeed(u, t1) then
AddFeed(u, t2) returns the same id both times with no error, the second call
leaves the store unchanged, and exactly one feed row for u is stored, with
the first call's title t1. -/
theorem addFeed_idempotent_first_title_wins (g : Store) (u t1 t2 : String)
    (h : ∀ f ∈ g.feeds, f.url ≠ u) :
    ∃ id g1 g2,
      AddFeed g u t1 = Except.ok (id, g1) ∧
      AddFeed g1 u t2 = Except.ok (id, g2) ∧
      g2 = g1 ∧
      g1.feeds.filter (fun f => f.url = u) =
        [{ id := id, url := u, title := t1 }] := by
  have hfind : g.feeds.find? (fun f => f.url = u) = none :=
    List.find?_eq_none.mpr (fun f hf => by simpa using h f hf)
  refine ⟨g.nextFeedId,
    { g with
      feeds := g.feeds ++ [{ id := g.nextFeedId, url := u, title := t1 }],
      nextFeedId := g.nextFeedId + 1 }, _, ?_, ?_, rfl, ?_⟩
  · unfold AddFeed GetFeedByURL
    rw [hfind]
  · unfold AddFeed GetFeedByURL
    rw [show ({ g with
      feeds := g.feeds ++ [{ id := g.nextFeedId, url := u, title := t1 }],
      nextFeedId := g.nextFeedId + 1 } : Store).feeds =
        g.feeds ++ [{ id := g.nextFeedId, url := u, title := t1 }] from rfl,
      find?_append_of_none hfind]
    simp [List.find?]
  · rw [show ({ g with
      feeds := g.feeds ++ [{ id := g.nextFeedId, url := u, title := t1 }],
      nextFeedId := g.nextFeedId + 1 } : Store).feeds =
        g.feeds ++ [{ id := g.nextFeedId, url := u, title := t1 }] from rfl,
      List.filter_append]
    have hnil : g.feeds.filter (fun f => f.url = u) = [] := by
      rw [List.filter_eq_nil_iff]
      intro f hf
      simpa using h f hf
    simp [hnil]

/-- Witness for C3 at a concrete store and URL. -/
theorem addFeed_idempotent_first_title_wins_witness :
    ∃ id g1 g2,
      AddFeed gTwoSnaps "https://a.example/" "A" = Except.ok (id, g1) ∧
      AddFeed g1 "https://a.example/" "B" = Except.ok (id, g2) ∧
      g2 = g1 ∧
      g1.feeds.filter (fun f => f.url = "https://a.example/") =
        [{ id := id, url := "https://a.example/", title := "A" }] :=
  addFeed_idempotent_first_title_wins gTwoSnaps "https://a.example/" "A" "B"
    (by decide)

/-- C4: re-inserting the same link edge or the same mention is a silent
no-op leaving exactly one stored row for the uniqueness key (assuming the
store's uniqueness invariant: at most one row per key beforehand). -/
theorem addLink_addMention_duplicate_noop (g : Store) (l : LinkRow)
    (m : MentionRow)
    (hl : g.links.countP (fun r => sameLinkKey r l) ≤ 1)
    (hm : g.mentions.countP (fun r => sameMentionKey r m) ≤ 1) :
    AddLink (AddLink g l) l = AddLink g l ∧
    (AddLink g l).links.countP (fun r => sameLinkKey r l) = 1 ∧
    AddMention (AddMention g m) m = AddMention g m ∧
    (AddMention g m).mentions.countP (fun r => sameMentionKey r m) = 1 := by
  have hselfL : sameLinkKey l l = true := by simp [sameLinkKey]
  have hselfM : sameMentionKey m m = true := by simp [sameMentionKey]
  have hlink : AddLink (AddLink g l) l = AddLink g l ∧
      (AddLink g l).links.countP (fun r => sameLinkKey r l) = 1 := by
    by_cases hany : g.links.any (fun r => sameLinkKey r l) = true
    · have hgl : AddLink g l = g := by
        unfold AddLink
        rw [if_pos hany]
      have hpos : 0 < g.links.countP (fun r => sameLinkKey r l) := by
        rcases List.any_eq_true.mp hany with ⟨r, hr, hkey⟩
        exact List.countP_pos_iff.mpr ⟨r, hr, hkey⟩
      rw [hgl]
      exact ⟨hgl, by omega⟩
    · have h0 : g.links.countP (fun r => sameLinkKey r l) = 0 := by
        rw [List.countP_eq_zero]
        intro r hr hkey
        exact hany (List.any_eq_true.mpr ⟨r, hr, hkey⟩)
      have hgl : AddLink g l = { g with links := g.links ++ [l] } := by
        unfold AddLink
        rw [if_neg hany]
      have hany2 : (g.links ++ [l]).any (fun r => sameLinkKey r l) = true :=
        List.any_eq_true.mpr ⟨l, by simp, hselfL⟩
      constructor
      · rw [hgl]
        unfold AddLink
        rw [if_pos hany2]
      · rw [hgl]
        simp [List.countP_append, h0, hselfL]
  have hment : AddMention (AddMention g m) m = AddMention g m ∧
      (AddMention g m).mentions.countP (fun r => sameMentionKey r m) = 1 := by
    by_cases hany : g.mentions.any (fun r => sameMentionKey r m) = true
    · have hgm : AddMention g m = g := by
        unfold AddMention
        rw [if_pos hany]
      have hpos : 0 < g.mentions.countP (fun r => sameMentionKey r m) := by
        rcases List.any_eq_true.mp hany with ⟨r, hr, hkey⟩
        exact List.countP_pos_iff.mpr ⟨r, hr, hkey⟩
      rw [hgm]
      exact ⟨hgm, by omega⟩
    · have h0 : g.mentions.countP (fun r => sameMentionKey r m) = 0 := by
        rw [List.countP_eq_zero]
        intro r hr hkey
        exact hany (List.any_eq_true.mpr ⟨r, hr, hkey⟩)
      have hgm : AddMention g m = { g with mentions := g.mentions ++ [m] } := by
        unfold AddMention
        rw [if_neg hany]
      have hany2 : (g.mentions ++ [m]).any (fun r => sameMentionKey r m) = true :=
        List.any_eq_true.mpr ⟨m, by simp, hselfM⟩
      constructor
      · rw [hgm]
        unfold AddMention
        rw [if_pos hany2]
      · rw [hgm]
        simp [List.countP_append, h0, hselfM]
  exact ⟨hlink.1, hlink.2, hment.1, hment.2⟩

/-- Witness for C4 at a concrete store, edge and mention. -/
theorem addLink_addMention_duplicate_noop_witness :
    AddLink (AddLink gOneMention lEx) lEx = AddLink gOneMention lEx ∧
    (AddLink gOneMention lEx).links.countP (fun r => sameLinkKey r lEx) = 1 ∧
    AddMention (AddMention gOneMention mEx) mEx = AddMention gOneMention mEx ∧
    (AddMention gOneMention mEx).mentions.countP
      (fun r => sameMentionKey r mEx) = 1 :=
  addLink_addMention_duplicate_noop gOneMention lEx mEx (by decide) (by decide)

/-- C5: every entry of GetMostLinked pairs a stored feed with its inbound
edge count and has a nonzero count (feeds with zero inbound edges are
excluded), the list is ordered by inbound count descending, and its length
is at most the limit. -/
theorem getMostLinked_spec (g : Store) (limit : Nat) :
    (∀ fc ∈ GetMostLinked g limit,
       fc.2 = inboundCount g fc.1.id ∧ 0 < fc.2 ∧ fc.1 ∈ g.feeds) ∧
    (GetMostLinked g limit).Pairwise
      (fun a b : FeedRow × Int => b.2 ≤ a.2) ∧
    (GetMostLinked g limit).length ≤ limit := by
  have hrows : GetMostLinked g limit =
      (isort (fun a b : FeedRow × Int => decide (b.2 ≤ a.2))
        (g.feeds.filterMap (fun f =>
          if 0 < inboundCount g f.id then some (f, inboundCount g f.id)
          else none))).take limit := rfl
  refine ⟨?_, ?_, ?_⟩
  · intro fc hfc
    rw [hrows] at hfc
    have h1 := List.mem_of_mem_take hfc
    rw [mem_isort] at h1
    rcases List.mem_filterMap.mp h1 with ⟨f, hf, heq⟩
    by_cases hc : 0 < inboundCount g f.id
    · rw [if_pos hc] at heq
      cases heq
      exact ⟨rfl, hc, hf⟩
    · rw [if_neg hc] at heq
      cases heq
  · rw [hrows]
    have hp := pairwise_isort (fun a b : FeedRow × Int => decide (b.2 ≤ a.2))
      (fun a b => by
        rcases le_total b.2 a.2 with h | h
        · exact Or.inl (by simpa using h)
        · exact Or.inr (by simpa using h))
      (fun a b c hab hbc => by
        simp only [decide_eq_true_eq] at hab hbc ⊢
        exact le_trans hbc hab)
      (g.feeds.filterMap (fun f =>
        if 0 < inboundCount g f.id then some (f, inboundCount g f.id)
        else none))
    exact (hp.take).imp (fun h => by simpa using h)
  · rw [hrows]
    exact List.length_take_le limit _

/-- Witness for C5: feed 4 appears in GetMostLinked of gRank paired with its
inbound count 2. -/
theorem getMostLinked_spec_witness :
    (fD, (2 : Int)).2 = inboundCount gRank (fD, (2 : Int)).1.id ∧
    0 < (fD, (2 : Int)).2 ∧ (fD, (2 : Int)).1 ∈ gRank.feeds :=
  (getMostLinked_spec gRank 10).1 (fD, 2) (by decide)

/-- C2: for a name in the current set with previous count p and current
count c, when 0 < p the computed velocity is (c - p) / p and the status is
"hot" exactly when velocity > 1 and c >= 3, else "rising" exactly when
velocity > 1/2, else empty; when p = 0 the velocity equals c (and the
status is "new"). -/
theorem classify_velocity_status_spec (g : Store) (et cd pd n : String)
    (c : Int) (hmem : (n, c) ∈ currentCountsFor g et cd) :
    (0 < lookup0 (previousCountsFor g et pd) n →
      (classify et n c (lookup0 (previousCountsFor g et pd) n)).velocity =
        ((c : ℚ) - ((lookup0 (previousCountsFor g et pd) n : Int) : ℚ)) /
          ((lookup0 (previousCountsFor g et pd) n : Int) : ℚ) ∧
      ((classify et n c (lookup0 (previousCountsFor g et pd) n)).status = "hot" ↔
        1 < (classify et n c (lookup0 (previousCountsFor g et pd) n)).velocity ∧
          3 ≤ c) ∧
      (¬(1 < (classify et n c (lookup0 (previousCountsFor g et pd) n)).velocity ∧
          3 ≤ c) →
        ((classify et n c (lookup0 (previousCountsFor g et pd) n)).status =
            "rising" ↔
          1/2 < (classify et n c (lookup0 (previousCountsFor g et pd) n)).velocity)) ∧
      (¬(1 < (classify et n c (lookup0 (previousCountsFor g et pd) n)).velocity ∧
          3 ≤ c) →
        ¬(1/2 < (classify et n c (lookup0 (previousCountsFor g et pd) n)).velocity) →
        (classify et n c (lookup0 (previousCountsFor g et pd) n)).status = "")) ∧
    (lookup0 (previousCountsFor g et pd) n = 0 →
      (classify et n c (lookup0 (previousCountsFor g et pd) n)).velocity = (c : ℚ) ∧
      (classify et n c (lookup0 (previousCountsFor g et pd) n)).status = "new") := by
  generalize lookup0 (previousCountsFor g et pd) n = p
  constructor
  · intro hp0
    have hp : ¬ p = 0 := by omega
    have hv : (classify et n c p).velocity =
        ((c : ℚ) - (p : ℚ)) / (p : ℚ) := by
      simp [classify, hp]
    have hs : (classify et n c p).status =
        (if 1 < ((c : ℚ) - (p : ℚ)) / (p : ℚ) ∧ 3 ≤ c then "hot"
         else if 1/2 < ((c : ℚ) - (p : ℚ)) / (p : ℚ) then "rising" else "") := by
      simp [classify, hp]
    rw [hs, hv]
    refine ⟨rfl, ?_, ?_, ?_⟩
    · by_cases h1 : 1 < ((c : ℚ) - (p : ℚ)) / (p : ℚ) ∧ 3 ≤ c
      · simp [if_pos h1, h1]
      · rw [if_neg h1]
        constructor
        · intro habs
          split_ifs at habs <;> simp_all
        · intro h
          exact absurd h h1
    · intro h1
      rw [if_neg h1]
      by_cases h2 : 1/2 < ((c : ℚ) - (p : ℚ)) / (p : ℚ)
      · simp [if_pos h2, h2]
      · rw [if_neg h2]
        constructor
        · intro habs
          simp at habs
        · intro h
          exact absurd h h2
    · intro h1 h2
      rw [if_neg h1, if_neg h2]
  · intro hp
    subst hp
    simp [classify]

/-- Witness for C2: in gTwoSnaps the name x has current count 8 and
previous count 3. -/
theorem classify_velocity_status_spec_witness :
    (0 < lookup0 (previousCountsFor gTwoSnaps "PERSON" "2024-01-01") "x" →
      (classify "PERSON" "x" 8
        (lookup0 (previousCountsFor gTwoSnaps "PERSON" "2024-01-01") "x")).velocity =
        (((8 : Int) : ℚ) -
          ((lookup0 (previousCountsFor gTwoSnaps "PERSON" "2024-01-01") "x" : Int) : ℚ)) /
          ((lookup0 (previousCountsFor gTwoSnaps "PERSON" "2024-01-01") "x" : Int) : ℚ) ∧
      ((classify "PERSON" "x" 8
          (lookup0 (previousCountsFor gTwoSnaps "PERSON" "2024-01-01") "x")).status =
          "hot" ↔
        1 < (classify "PERSON" "x" 8
          (lookup0 (previousCountsFor gTwoSnaps "PERSON" "2024-01-01") "x")).velocity ∧
          3 ≤ (8 : Int)) ∧
      (¬(1 < (classify "PERSON" "x" 8
            (lookup0 (previousCountsFor gTwoSnaps "PERSON" "2024-01-01") "x")).velocity ∧
          3 ≤ (8 : Int)) →
        ((classify "PERSON" "x" 8
            (lookup0 (previousCountsFor gTwoSnaps "PERSON" "2024-01-01") "x")).status =
            "rising" ↔
          1/2 < (classify "PERSON" "x" 8
            (lookup0 (previousCountsFor gTwoSnaps "PERSON" "2024-01-01") "x")).velocity)) ∧
      (¬(1 < (classify "PERSON" "x" 8
            (lookup0 (previousCountsFor gTwoSnaps "PERSON" "2024-01-01") "x")).velocity ∧
          3 ≤ (8 : Int)) →
        ¬(1/2 < (classify "PERSON" "x" 8
            (lookup0 (previousCountsFor gTwoSnaps "PERSON" "2024-01-01") "x")).velocity) →
        (classify "PERSON" "x" 8
          (lookup0 (previousCountsFor gTwoSnaps "PERSON" "2024-01-01") "x")).status = "")) ∧
    (lookup0 (previousCountsFor gTwoSnaps "PERSON" "2024-01-01") "x" = 0 →
      (classify "PERSON" "x" 8
        (lookup0 (previousCountsFor gTwoSnaps "PERSON" "2024-01-01") "x")).velocity =
        ((8 : Int) : ℚ) ∧
      (classify "PERSON" "x" 8
        (lookup0 (previousCountsFor gTwoSnaps "PERSON" "2024-01-01") "x")).status =
        "new") :=
  classify_velocity_status_spec gTwoSnaps "PERSON" "2024-01-08" "2024-01-01" "x" 8
    (by decide)

/-- C7: PruneSnapshots(D) deletes exactly the snapshot rows with
snapshot_date < D, keeps every snapshot row with snapshot_date >= D, leaves
the feeds, links and mentions tables unchanged, and reports the number of
deleted rows. -/
theorem pruneSnapshots_boundary_frame (g : Store) (D : String) :
    (∀ s ∈ g.snapshots, s.snapshotDate < D →
       s ∉ ((PruneSnapshots g D).2).snapshots) ∧
    (∀ s ∈ g.snapshots, D ≤ s.snapshotDate →
       s ∈ ((PruneSnapshots g D).2).snapshots) ∧
    (∀ s ∈ ((PruneSnapshots g D).2).snapshots,
       s ∈ g.snapshots ∧ D ≤ s.snapshotDate) ∧
    ((PruneSnapshots g D).2).feeds = g.feeds ∧
    ((PruneSnapshots g D).2).links = g.links ∧
    ((PruneSnapshots g D).2).mentions = g.mentions ∧
    (PruneSnapshots g D).1 =
      ((g.snapshots.countP (fun s => s.snapshotDate < D)) : Int) := by
  refine ⟨?_, ?_, ?_, rfl, rfl, rfl, rfl⟩
  · intro s hs hlt hmem
    have h2 := (List.mem_filter.mp hmem).2
    simp only [decide_eq_true_eq] at h2
    exact h2 hlt
  · intro s hs hle
    exact List.mem_filter.mpr ⟨hs, by simpa using not_lt.mpr hle⟩
  · intro s hmem
    have h := List.mem_filter.mp hmem
    refine ⟨h.1, le_of_not_lt ?_⟩
    simpa using h.2

/-- Witness for C7: the row dated before the cut-off is removed. -/
theorem pruneSnapshots_boundary_frame_witness :
    ({ name := "x", entityType := "PERSON", mentionCount := 1,
       snapshotDate := "2024-01-01" } : SnapshotRow) ∉
      ((PruneSnapshots gSnapDates "2024-01-02").2).snapshots :=
  (pruneSnapshots_boundary_frame gSnapDates "2024-01-02").1 _ (by decide)
    (by rw [String.lt_iff_toList_lt]; decide)

theorem filter_replaceSnapshot (k : String × String × String)
    (snaps : List SnapshotRow) (r : SnapshotRow) :
    (replaceSnapshot snaps r).filter (fun s => tripleOf s = k) =
      if tripleOf r = k then [r]
      else snaps.filter (fun s => tripleOf s = k) := by
  unfold replaceSnapshot
  rw [List.filter_append]
  by_cases hk : tripleOf r = k
  · rw [if_pos hk]
    have h2 : (snaps.filter (fun s => ¬ tripleOf s = tripleOf r)).filter
        (fun s => tripleOf s = k) = [] := by
      rw [List.filter_eq_nil_iff]
      intro s hs
      have hne := (List.mem_filter.mp hs).2
      simp only [decide_eq_true_eq] at hne ⊢
      rw [← hk]
      exact hne
    rw [h2]
    simp [hk]
  · rw [if_neg hk]
    have h3 : List.filter (fun s => decide (tripleOf s = k)) [r] = [] := by
      simp [hk]
    rw [h3, List.append_nil, List.filter_filter]
    apply List.filter_congr
    intro s _
    by_cases h : tripleOf s = k
    · have hne : ¬ tripleOf s = tripleOf r := fun he => hk (he.symm.trans h)
      have hkr : ¬ k = tripleOf r := fun he => hk he.symm
      simp [h, hne, hkr]
    · simp [h]

theorem filter_foldl_no_key (d : String) (gs : List (String × String × Int))
    (k : String × String × String)
    (h : ∀ r ∈ gs, (r.1, r.2.1, d) ≠ k) (init : List SnapshotRow) :
    (gs.foldl (snapStep d) init).filter (fun s => tripleOf s = k) =
      init.filter (fun s => tripleOf s = k) := by
  induction gs generalizing init with
  | nil => rfl
  | cons m gs ih =>
      rw [List.foldl_cons, ih (fun r hr => h r (List.mem_cons_of_mem m hr))]
      rw [show snapStep d init m = replaceSnapshot init
        { name := m.1, entityType := m.2.1, mentionCount := m.2.2,
          snapshotDate := d } from rfl]
      rw [filter_replaceSnapshot, if_neg]
      exact h m (List.mem_cons_self m gs)

theorem filter_foldl_mem (d : String) (gs : List (String × String × Int))
    (n et : String) (c : Int) (hmem : (n, et, c) ∈ gs)
    (hkeys : (gs.map (fun r => (r.1, r.2.1))).Nodup)
    (init : List SnapshotRow) :
    (gs.foldl (snapStep d) init).filter (fun s => tripleOf s = (n, et, d)) =
      [{ name := n, entityType := et, mentionCount := c,
         snapshotDate := d }] := by
  induction gs generalizing init with
  | nil => cases hmem
  | cons m gs ih =>
      rw [List.map_cons] at hkeys
      rw [List.foldl_cons]
      rcases List.mem_cons.mp hmem with heq | hmem2
      · have hhead : (m.1, m.2.1) = (n, et) := by rw [← heq]
        have hno : ∀ r ∈ gs, (r.1, r.2.1, d) ≠ (n, et, d) := by
          intro r hr habs
          have h1 : (r.1, r.2.1) = (n, et) := by
            have e1 : r.1 = n := congrArg Prod.fst habs
            have e2 : r.2.1 = et := congrArg Prod.fst (congrArg Prod.snd habs)
            rw [e1, e2]
          have h2 : (n, et) ∈ gs.map (fun r => (r.1, r.2.1)) := by
            rw [← h1]
            exact List.mem_map_of_mem _ hr
          rw [← hhead] at h2
          exact (List.nodup_cons.mp hkeys).1 h2
        rw [filter_foldl_no_key d gs (n, et, d) hno]
        rw [show snapStep d init m = replaceSnapshot init
          { name := m.1, entityType := m.2.1, mentionCount := m.2.2,
            snapshotDate := d } from rfl]
        rw [filter_replaceSnapshot, if_pos]
        · rw [← heq]
        · show (m.1, m.2.1, d) = (n, et, d)
          rw [← heq]
      · exact ih hmem2 (List.nodup_cons.mp hkeys).2 (snapStep d init m)

theorem tripleNodup_replaceSnapshot (snaps : List SnapshotRow)
    (r : SnapshotRow) (h : tripleNodup snaps) :
    tripleNodup (replaceSnapshot snaps r) := by
  unfold replaceSnapshot
  rw [tripleNodup, List.map_append]
  apply List.Nodup.append
  · exact ((List.filter_sublist snaps).map tripleOf).nodup h
  · exact List.nodup_singleton _
  · intro a ha hb
    rcases List.mem_map.mp ha with ⟨s, hs, rfl⟩
    have hne := (List.mem_filter.mp hs).2
    simp only [decide_eq_true_eq] at hne
    rcases List.mem_singleton.mp hb with heq
    exact hne heq

theorem tripleNodup_foldl (d : String) (gs : List (String × String × Int))
    (init : List SnapshotRow) (h : tripleNodup init) :
    tripleNodup (gs.foldl (snapStep d) init) := by
  induction gs generalizing init with
  | nil => exact h
  | cons m gs ih =>
      rw [List.foldl_cons]
      exact ih _ (tripleNodup_replaceSnapshot init _ h)

theorem map_keys_eq (ks : List (String × String)) (f : String × String → Int) :
    ((ks.map (fun k => (k.1, k.2, f k))).map
      (fun r : String × String × Int => (r.1, r.2.1))) = ks := by
  rw [List.map_map]
  have e : ((fun r : String × String × Int => (r.1, r.2.1)) ∘
      (fun k : String × String => (k.1, k.2, f k))) = id := rfl
  rw [e, List.map_id]

theorem mentionGroups_keys_nodup (ms : List MentionRow) :
    ((mentionGroups ms).map (fun r => (r.1, r.2.1))).Nodup := by
  unfold mentionGroups
  rw [map_keys_eq]
  exact nodup_firstDedup _

theorem mem_mentionGroups (ms : List MentionRow) (n et : String)
    (h : ∃ m ∈ ms, m.name = n ∧ m.entityType = et) :
    (n, et, ((ms.filter (fun m => m.name = n ∧ m.entityType = et)).length : Int)) ∈
      mentionGroups ms := by
  rcases h with ⟨m, hm, h1, h2⟩
  unfold mentionGroups
  apply List.mem_map.mpr
  refine ⟨(n, et), ?_, rfl⟩
  rw [mem_firstDedup]
  exact List.mem_map.mpr ⟨m, hm, by rw [h1, h2]⟩

/-- C6: TakeSnapshot(d) writes exactly one snapshot row per (name,
entityType) group of the live mention table, carrying the group's live
count; a second TakeSnapshot with the same date replaces each such row
rather than adding one, and the per-triple uniqueness of the snapshot table
is preserved by both calls, so it never holds two rows for the same
(name, type, date) triple. -/
theorem takeSnapshot_replace_spec (g : Store) (d : String)
    (hinv : tripleNodup g.snapshots) :
    (∀ n et, (∃ m ∈ g.mentions, m.name = n ∧ m.entityType = et) →
      ((TakeSnapshot g d).2.snapshots.filter
          (fun s => tripleOf s = (n, et, d))) =
        [{ name := n, entityType := et,
           mentionCount := ((g.mentions.filter
             (fun m => m.name = n ∧ m.entityType = et)).length : Int),
           snapshotDate := d }] ∧
      ((TakeSnapshot (TakeSnapshot g d).2 d).2.snapshots.filter
          (fun s => tripleOf s = (n, et, d))) =
        [{ name := n, entityType := et,
           mentionCount := ((g.mentions.filter
             (fun m => m.name = n ∧ m.entityType = et)).length : Int),
           snapshotDate := d }]) ∧
    tripleNodup (TakeSnapshot g d).2.snapshots ∧
    tripleNodup (TakeSnapshot (TakeSnapshot g d).2 d).2.snapshots ∧
    (TakeSnapshot g d).1 = ((mentionGroups g.mentions).length : Int) := by
  have hsnap1 : (TakeSnapshot g d).2.snapshots =
      (mentionGroups g.mentions).foldl (snapStep d) g.snapshots := rfl
  have hment1 : (TakeSnapshot g d).2.mentions = g.mentions := rfl
  have hsnap2 : (TakeSnapshot (TakeSnapshot g d).2 d).2.snapshots =
      (mentionGroups g.mentions).foldl (snapStep d)
        ((mentionGroups g.mentions).foldl (snapStep d) g.snapshots) := rfl
  refine ⟨?_, ?_, ?_, rfl⟩
  · intro n et hex
    have hmem := mem_mentionGroups g.mentions n et hex
    have hkeys := mentionGroups_keys_nodup g.mentions
    constructor
    · rw [hsnap1]
      exact filter_foldl_mem d (mentionGroups g.mentions) n et _ hmem hkeys
        g.snapshots
    · rw [hsnap2]
      exact filter_foldl_mem d (mentionGroups g.mentions) n et _ hmem hkeys
        ((mentionGroups g.mentions).foldl (snapStep d) g.snapshots)
  · rw [hsnap1]
    exact tripleNodup_foldl d _ _ hinv
  · rw [hsnap2]
    exact tripleNodup_foldl d _ _ (tripleNodup_foldl d _ _ hinv)

/-- Witness for C6 at a concrete store with one live mention. -/
theorem takeSnapshot_replace_spec_witness :
    ((TakeSnapshot gOneMention "2024-01-08").2.snapshots.filter
        (fun s => tripleOf s = ("x", "PERSON", "2024-01-08"))) =
      [{ name := "x", entityType := "PERSON",
         mentionCount := ((gOneMention.mentions.filter
           (fun m => m.name = "x" ∧ m.entityType = "PERSON")).length : Int),
         snapshotDate := "2024-01-08" }] ∧
    ((TakeSnapshot (TakeSnapshot gOneMention "2024-01-08").2
        "2024-01-08").2.snapshots.filter
        (fun s => tripleOf s = ("x", "PERSON", "2024-01-08"))) =
      [{ name := "x", entityType := "PERSON",
         mentionCount := ((gOneMention.mentions.filter
           (fun m => m.name = "x" ∧ m.entityType = "PERSON")).length : Int),
         snapshotDate := "2024-01-08" }] :=
  (takeSnapshot_replace_spec gOneMention "2024-01-08" (by decide)).1 "x" "PERSON"
    (by decide)

theorem liveCount_eq_specLiveCount (ms : List MentionRow) (et n : String) :
    (((ms.filter (fun m => m.entityType = et)).filter
        (fun m => m.name = n)).length : Int) = specLiveCount ms et n := by
  unfold specLiveCount
  have e : (ms.filter (fun m => m.entityType = et)).filter
      (fun m => m.name = n) = ms.filter (fun m => m.entityType = et ∧ m.name = n) := by
    rw [List.filter_filter]
    apply List.filter_congr
    intro m _
    by_cases h1 : m.name = n <;> by_cases h2 : m.entityType = et <;>
      simp [h1, h2]
  rw [e]

theorem mem_liveCountPairs (ms : List MentionRow) (et n : String) (c : Int) :
    (n, c) ∈ liveCountPairs ms et ↔
      ((∃ m ∈ ms, m.entityType = et ∧ m.name = n) ∧
       c = specLiveCount ms et n) := by
  unfold liveCountPairs
  constructor
  · intro h
    rcases List.mem_map.mp h with ⟨nm, hnm, heq⟩
    injection heq with h1 h2
    subst h1
    rw [mem_firstDedup] at hnm
    rcases List.mem_map.mp hnm with ⟨m, hmrel, hmname⟩
    have hm2 := List.mem_filter.mp hmrel
    refine ⟨⟨m, hm2.1, by simpa using hm2.2, hmname⟩, ?_⟩
    rw [← h2]
    exact liveCount_eq_specLiveCount ms et nm
  · rintro ⟨⟨m, hm, h2, h1⟩, hc⟩
    apply List.mem_map.mpr
    refine ⟨n, ?_, ?_⟩
    · rw [mem_firstDedup]
      exact List.mem_map.mpr ⟨m, List.mem_filter.mpr ⟨hm, by simpa using h2⟩, h1⟩
    · rw [Prod.mk.injEq]
      exact ⟨rfl, by rw [hc]; exact liveCount_eq_specLiveCount ms et n⟩

theorem snapshotPairs_eq_nil (snaps : List SnapshotRow) (et dd : String)
    (h : ∀ s ∈ snaps, ¬(s.entityType = et ∧ s.snapshotDate = dd)) :
    snapshotPairs snaps et dd = [] := by
  unfold snapshotPairs
  have e : snaps.filter (fun s => s.entityType = et ∧ s.snapshotDate = dd) = [] :=
    List.filter_eq_nil_iff.mpr (fun s hs => by simpa using h s hs)
  rw [e]
  rfl

/-- C8: when no snapshot row exists for (entityType, currentDate), the
current counts used by GetRisingMentions are exactly the live per-name
aggregation of the mention table for that entity type (same key set, same
count values); when no snapshot row exists for (entityType, previousDate),
every previous count used is 0 (no live fallback for the previous
period). -/
theorem risingMentions_live_fallback (g : Store) (et cd pd : String)
    (hcur : ∀ s ∈ g.snapshots, ¬(s.entityType = et ∧ s.snapshotDate = cd))
    (hprev : ∀ s ∈ g.snapshots, ¬(s.entityType = et ∧ s.snapshotDate = pd)) :
    currentCountsFor g et cd = liveCountPairs g.mentions et ∧
    (∀ n c, (n, c) ∈ currentCountsFor g et cd ↔
       ((∃ m ∈ g.mentions, m.entityType = et ∧ m.name = n) ∧
        c = specLiveCount g.mentions et n)) ∧
    (∀ n, lookup0 (previousCountsFor g et pd) n = 0) := by
  have h1 : currentCountsFor g et cd = liveCountPairs g.mentions et := by
    show (if (buildCounts (snapshotPairs g.snapshots et cd)).isEmpty then
        liveCountPairs g.mentions et
      else buildCounts (snapshotPairs g.snapshots et cd)) = _
    rw [snapshotPairs_eq_nil g.snapshots et cd hcur]
    rfl
  refine ⟨h1, ?_, ?_⟩
  · intro n c
    rw [h1]
    exact mem_liveCountPairs g.mentions et n c
  · intro n
    show lookup0 (buildCounts (snapshotPairs g.snapshots et pd)) n = 0
    rw [snapshotPairs_eq_nil g.snapshots et pd hprev]
    rfl

/-- Witness for C8 at a concrete store with one live mention and no
snapshots. -/
theorem risingMentions_live_fallback_witness :
    currentCountsFor gOneMention "PERSON" "2024-01-08" =
      liveCountPairs gOneMention.mentions "PERSON" :=
  (risingMentions_live_fallback gOneMention "PERSON" "2024-01-08" "2024-01-01"
    (by decide) (by decide)).1
